import Mathlib

/-!
Shallow embedding of `game_agent.py`: a time-bounded iterative-deepening
minimax / alpha-beta game-playing agent.

Modelling conventions:

* A `Move` is a pair of integers `(row, col)`; `NO_MOVE = (-1, -1)` mirrors
  `CustomPlayer.NO_MOVE`.
* Python floats appearing as search scores are `-inf`, integer-valued finite
  floats (produced by `custom_score`), or `+inf`; they are embedded as the
  three-constructor type `Score`.  `Score.lt` is IEEE `<` restricted to these
  values (no NaN ever arises).
* The score variable of the search loops starts as Python `None`; it is
  embedded as `Option Score` with `none` for `None`.  Python's
  `current or float('-inf')` is embedded by `pyOr`: both `None` and the float
  `0.0` are falsy, so both select the default.
* Comparing `None` with a float raises `TypeError` in Python 3; errors are
  embedded with `Except PyErr`, `PyErr.timeout` standing for the `Timeout`
  exception and `PyErr.typeError` for `TypeError`.
* The board (`isolation.Board`) is an external collaborator; it is embedded
  as the record of functions `GameIface` over an abstract state type, with
  the two participants `Player.me` (the agent, Python `self`) and
  `Player.opp`.
* `time_left` is a live callback; each entry of `minimax`/`alphabeta` calls
  it exactly once, so the callback is embedded as a function from the index
  of the call (a tick counter threaded through the recursion) to the
  returned number of milliseconds.
-/

/-- A board move `(row, col)`; coordinates are Python ints. -/
abbrev Move : Type := Int × Int

/-- `CustomPlayer.NO_MOVE`, the sentinel move `(-1, -1)`. -/
def NO_MOVE : Move := (-1, -1)

/-- The two participants: `me` is the agent itself (Python `self`). -/
inductive Player where
  | me : Player
  | opp : Player
deriving DecidableEq, Repr

/-- `game.get_opponent(player)` for the two participants. -/
def Player.other : Player → Player
  | .me => .opp
  | .opp => .me

/-- A search score: a Python float that is `-inf`, a finite integer-valued
float, or `+inf`. -/
inductive Score where
  | ninf : Score
  | fin : Int → Score
  | pinf : Score
deriving DecidableEq, Repr

/-- IEEE `<` on the embedded floats (no NaN occurs). -/
def Score.lt : Score → Score → Bool
  | .ninf, .ninf => false
  | .ninf, _ => true
  | .fin _, .ninf => false
  | .fin a, .fin b => decide (a < b)
  | .fin _, .pinf => true
  | .pinf, _ => false

/-- IEEE `<=` on the embedded floats. -/
def Score.le (a b : Score) : Bool := Score.lt a b || a == b

/-- IEEE `>=` on the embedded floats, used by `alphabeta_cut_decision`. -/
def Score.ge (a b : Score) : Bool := Score.le b a

/-- The failures the embedded code can raise: the `Timeout` exception of the
deadline monitor, and Python 3's `TypeError` from ordering `None` against a
float. -/
inductive PyErr where
  | timeout : PyErr
  | typeError : PyErr
deriving DecidableEq, Repr

/-- The external board collaborator (`isolation.Board`) as consumed by the
core: legal moves per player, active player (for the zero-argument
`get_legal_moves()`), successor states, and the terminal predicates. -/
structure GameIface (σ : Type) where
  legalMovesFor : σ → Player → List Move
  activePlayer : σ → Player
  forecast : σ → Move → σ
  isWinner : σ → Player → Bool
  isLoser : σ → Player → Bool

/-- `game.get_legal_moves()` with the player argument omitted: the moves of
the active player. -/
def legalMovesCur (G : GameIface σ) (g : σ) : List Move :=
  G.legalMovesFor g (G.activePlayer g)

/-- `custom_score(game, player)`: `-inf` when the player has lost, `+inf`
when the player has won, otherwise `own_moves - opp_moves` as a float. -/
def custom_score (G : GameIface σ) (game : σ) (player : Player) : Score :=
  if G.isLoser game player then .ninf
  else if G.isWinner game player then .pinf
  else .fin (((G.legalMovesFor game player).length : Int)
             - ((G.legalMovesFor game player.other).length : Int))

/-- `CustomPlayer.is_game_terminal(game)`:
`len(game.get_legal_moves()) == 0`. -/
def is_game_terminal (G : GameIface σ) (g : σ) : Bool :=
  (legalMovesCur G g).length == 0

/-- Python's `current or default` on an optional score: `None` and the
falsy float `0.0` both select the default. -/
def pyOr : Option Score → Score → Score
  | none, d => d
  | some s, d => if s = .fin 0 then d else s

/-- `CustomPlayer.minimax_change_decision(maxplayer, proposed, current)`.
A `proposed` of `None` reaches an order comparison against a float on either
branch and raises `TypeError`. -/
def minimax_change_decision (maxplayer : Bool) (proposed : Option Score)
    (current : Option Score) : Except PyErr Bool :=
  match proposed with
  | none => .error .typeError
  | some p =>
    if maxplayer && Score.lt (pyOr current .ninf) p then .ok true
    else if !maxplayer && Score.lt p (pyOr current .pinf) then .ok true
    else .ok false

/-- `CustomPlayer.alphabeta_cut_decision(maxplayer, alpha, beta)`. -/
def alphabeta_cut_decision (maxplayer : Bool) (alpha beta : Score) : Bool :=
  if maxplayer && Score.ge alpha beta then true
  else if !maxplayer && Score.ge alpha beta then true
  else false

/-- `CustomPlayer.alphabeta_update(maxplayer, alpha, beta, proposed)`. -/
def alphabeta_update (maxplayer : Bool) (alpha beta proposed : Score) :
    Score × Score :=
  if maxplayer && Score.lt alpha proposed then (proposed, beta)
  else if !maxplayer && Score.lt proposed beta then (alpha, proposed)
  else (alpha, beta)

/-- Which search method the agent is configured with
(`self.method` in `{'minimax', 'alphabeta'}`). -/
inductive SearchMethod where
  | minimaxMeth : SearchMethod
  | alphabetaMeth : SearchMethod
deriving DecidableEq, Repr

/-- A `CustomPlayer` instance together with the board collaborator and the
`time_left` callback of the current `get_move` invocation.  `timeLeft k` is
the value returned by the `k`-th call of the callback, `threshold` is
`self.TIMER_THRESHOLD`, and `scoreFn` is the pluggable `self.score`. -/
structure Agent (σ : Type) where
  G : GameIface σ
  scoreFn : σ → Player → Score
  timeLeft : Nat → Int
  threshold : Int
  iterative : Bool
  searchDepth : Nat
  method : SearchMethod

/-- The value returned by a search call: the `(score, move)` pair (score
`none` when the Python variable still holds `None`), together with the tick
counter after the call. -/
abbrev SearchRet : Type := (Option Score × Move) × Nat

/-- The move loop of `CustomPlayer.minimax`: iterate over the legal moves,
recurse through `recur` on each forecast state, and update the running
`(score, move)` pair when `minimax_change_decision` fires.  Exceptions
propagate out of the loop. -/
def mmLoop (recur : σ → Nat → Except PyErr SearchRet) (maxp : Bool)
    (G : GameIface σ) (g : σ) :
    List Move → Option Score → Move → Nat → Except PyErr SearchRet
  | [], score, move, t => .ok ((score, move), t)
  | m :: ms, score, move, t =>
    match recur (G.forecast g m) t with
    | .error e => .error e
    | .ok ((s, _), t2) =>
      match minimax_change_decision maxp s score with
      | .error e => .error e
      | .ok true => mmLoop recur maxp G g ms s m t2
      | .ok false => mmLoop recur maxp G g ms score move t2

/-- `CustomPlayer.minimax(game, depth, maximizing_player)`.  The deadline
check at entry consumes one tick; the base case returns
`(self.score(game, self), NO_MOVE)`; the recursive case runs `mmLoop` with
`score = None` and `move = moves[0]`. -/
def minimax (A : Agent σ) : Nat → σ → Bool → Nat → Except PyErr SearchRet
  | 0, g, _, t =>
    if A.timeLeft t < A.threshold then .error .timeout
    else .ok ((some (A.scoreFn g .me), NO_MOVE), t + 1)
  | d + 1, g, maxp, t =>
    if A.timeLeft t < A.threshold then .error .timeout
    else if is_game_terminal A.G g then
      .ok ((some (A.scoreFn g .me), NO_MOVE), t + 1)
    else
      mmLoop (fun g2 t2 => minimax A d g2 (!maxp) t2) maxp A.G g
        (legalMovesCur A.G g) none ((legalMovesCur A.G g).headD NO_MOVE) (t + 1)

/-- The move loop of `CustomPlayer.alphabeta`: as `mmLoop`, but when the
running best is replaced the bounds are updated through `alphabeta_update`
and the loop breaks when `alphabeta_cut_decision` fires.  When the decision
fires on a `None` score (unreachable), `alphabeta_update` would order `None`
against a float, raising `TypeError`. -/
def abLoop (recur : σ → Score → Score → Nat → Except PyErr SearchRet)
    (maxp : Bool) (G : GameIface σ) (g : σ) :
    List Move → Option Score → Move → Score → Score → Nat →
      Except PyErr SearchRet
  | [], score, move, _, _, t => .ok ((score, move), t)
  | m :: ms, score, move, alpha, beta, t =>
    match recur (G.forecast g m) alpha beta t with
    | .error e => .error e
    | .ok ((s, _), t2) =>
      match minimax_change_decision maxp s score with
      | .error e => .error e
      | .ok false => abLoop recur maxp G g ms score move alpha beta t2
      | .ok true =>
        match s with
        | none => .error .typeError
        | some p =>
          match alphabeta_update maxp alpha beta p with
          | (alpha2, beta2) =>
            if alphabeta_cut_decision maxp alpha2 beta2 then
              .ok ((some p, m), t2)
            else abLoop recur maxp G g ms (some p) m alpha2 beta2 t2

/-- `CustomPlayer.alphabeta(game, depth, alpha, beta, maximizing_player)`. -/
def alphabeta (A : Agent σ) :
    Nat → σ → Score → Score → Bool → Nat → Except PyErr SearchRet
  | 0, g, _, _, _, t =>
    if A.timeLeft t < A.threshold then .error .timeout
    else .ok ((some (A.scoreFn g .me), NO_MOVE), t + 1)
  | d + 1, g, alpha, beta, maxp, t =>
    if A.timeLeft t < A.threshold then .error .timeout
    else if is_game_terminal A.G g then
      .ok ((some (A.scoreFn g .me), NO_MOVE), t + 1)
    else
      abLoop (fun g2 a b t2 => alphabeta A d g2 a b (!maxp) t2) maxp A.G g
        (legalMovesCur A.G g) none ((legalMovesCur A.G g).headD NO_MOVE)
        alpha beta (t + 1)

/-- `getattr(self, self.method)` applied as `method(game, depth)`: the
top-level entry of the configured search with its default arguments
(`maximizing_player=True`, and for alphabeta `alpha=-inf, beta=+inf`). -/
def dispatch (A : Agent σ) (g : σ) : Nat → Nat → Except PyErr SearchRet :=
  fun depth t =>
    match A.method with
    | .minimaxMeth => minimax A depth g true t
    | .alphabetaMeth => alphabeta A depth g .ninf .pinf true t

/-- The iterative-deepening loop `for depth in count(1): score, move =
method(game, depth)` inside the `try` of `get_move`: a `Timeout` from the
search is caught and the move recorded by the last completed depth is
returned; any other exception propagates.  The Python loop never exits
normally, so the embedding carries `fuel`, the number of depths still
allowed; `none` means the loop is still running after `fuel` depths. -/
def idDrive (run : Nat → Nat → Except PyErr SearchRet) :
    Nat → Nat → Nat → Move → Option (Except PyErr Move)
  | 0, _, _, _ => none
  | fuel + 1, depth, t, move =>
    match run depth t with
    | .error .timeout => some (.ok move)
    | .error e => some (.error e)
    | .ok ((_, m), t2) => idDrive run fuel (depth + 1) t2 m

/-- `CustomPlayer.get_move(game, legal_moves, time_left)` with the search
method abstracted as `run`: return `NO_MOVE` on an empty move list, else
initialize the fallback move to `legal_moves[0]` and run either the
iterative-deepening loop or one fixed-depth search, catching `Timeout`. -/
def get_move_run (iterative : Bool) (searchDepth : Nat)
    (run : Nat → Nat → Except PyErr SearchRet) (legal_moves : List Move)
    (fuel : Nat) : Option (Except PyErr Move) :=
  if legal_moves.length = 0 then some (.ok NO_MOVE)
  else if iterative then idDrive run fuel 1 0 (legal_moves.headD NO_MOVE)
  else
    match run searchDepth 0 with
    | .error .timeout => some (.ok (legal_moves.headD NO_MOVE))
    | .error e => some (.error e)
    | .ok ((_, m), _) => some (.ok m)

/-- `CustomPlayer.get_move` with the configured method dispatched. -/
def get_move (A : Agent σ) (g : σ) (legal_moves : List Move) (fuel : Nat) :
    Option (Except PyErr Move) :=
  get_move_run A.iterative A.searchDepth (dispatch A g) legal_moves fuel

/-- The states the iterative-deepening loop passes through:
`Reaches run mv0 d t mv` holds when the driver, started at depth 1, tick 0
with the initial fallback move `mv0`, completes every depth below `d` and
arrives at depth `d` with tick `t` carrying the move `mv` — which is
therefore the move of the last fully completed depth `d - 1`, or the
initial fallback `mv0` when no depth has completed (`d = 1`). -/
inductive Reaches (run : Nat → Nat → Except PyErr SearchRet) (mv0 : Move) :
    Nat → Nat → Move → Prop where
  | init : Reaches run mv0 1 0 mv0
  | step {d t : Nat} {mv : Move} {s2 : Option Score} {m2 : Move} {t2 : Nat} :
      Reaches run mv0 d t mv → run d t = .ok ((s2, m2), t2) →
      Reaches run mv0 (d + 1) t2 m2

/-!
Specification-side definitions, for comparison with the code embedding.
-/

/-- The selection rule as worded by the spec: on a maximizing ply a
candidate replaces the current best iff strictly greater than the current
best score, treating `no current best yet` as `-inf`; dually on a
minimizing ply with `+inf`.  (This follows the spec sentence, not the
source.) -/
def spec_selection_rule (maxplayer : Bool) (proposed : Score)
    (current : Option Score) : Bool :=
  if maxplayer then Score.lt (current.getD .ninf) proposed
  else Score.lt proposed (current.getD .pinf)

/-- The effective current best that the source actually compares against:
`no current best yet` and a current best equal to the falsy float `0.0`
are both replaced by the default bound. -/
def effective_best : Option Score → Score → Score
  | none, d => d
  | some (.fin 0), d => d
  | some s, _ => s

/-- The amended selection rule: strict improvement over the effective
current best of `effective_best`. -/
def spec_selection_rule_zero (maxplayer : Bool) (proposed : Score)
    (current : Option Score) : Bool :=
  if maxplayer then Score.lt (effective_best current .ninf) proposed
  else Score.lt proposed (effective_best current .pinf)

/-!
Concrete instances of the collaborator interface, used as witnesses and
counterexamples.  A state is the history of moves played from the start
state `[]`; `forecast` appends the move, and the active player alternates
with the parity of the history length, `me` moving first.
-/

/-- Builds a collaborator over move histories from a legal-move table and
the two terminal predicates. -/
def histGame (legal : List Move → Player → List Move)
    (winner loser : List Move → Player → Bool) : GameIface (List Move) where
  legalMovesFor := legal
  activePlayer := fun h => if h.length % 2 == 0 then .me else .opp
  forecast := fun h m => h ++ [m]
  isWinner := winner
  isLoser := loser

/-- A terminal predicate that never fires. -/
def falseFlag : List Move → Player → Bool := fun _ _ => false

/-- An agent over a history game whose evaluation function is the default
`custom_score`. -/
def mkAgent (G : GameIface σ) (tl : Nat → Int) (thr : Int) (it : Bool)
    (sd : Nat) (m : SearchMethod) : Agent σ :=
  ⟨G, custom_score G, tl, thr, it, sd, m⟩

/-- Legal-move table of the divergence game: the root has moves A, B, C;
the leaves below them evaluate (for `me`) to 0, -1, and 0 then -2. -/
def exLegal (h : List Move) (p : Player) : List Move :=
  if h = [] then (if p = .me then [(0, 0), (0, 1), (0, 2)] else [])
  else if h = [(0, 0)] then (if p = .opp then [(1, 0)] else [])
  else if h = [(0, 1)] then (if p = .opp then [(1, 1)] else [])
  else if h = [(0, 2)] then (if p = .opp then [(2, 0), (2, 1)] else [])
  else if h = [(0, 1), (1, 1)] then (if p = .opp then [(9, 0)] else [])
  else if h = [(0, 2), (2, 1)] then (if p = .opp then [(9, 1), (9, 2)] else [])
  else []

/-- The divergence game: minimax and alphabeta disagree on it at depth 2. -/
def exG : GameIface (List Move) := histGame exLegal falseFlag falseFlag

/-- Agent playing the divergence game with an ample time budget. -/
def exAgent : Agent (List Move) :=
  mkAgent exG (fun _ => 1000) 10 true 3 .minimaxMeth

/-- Legal-move table with two root moves and nothing below them. -/
def tieLegal (h : List Move) (p : Player) : List Move :=
  if h = [] then (if p = .me then [(0, 0), (0, 1)] else []) else []

/-- The tie game: both root moves evaluate to the falsy score 0.0. -/
def tieG : GameIface (List Move) := histGame tieLegal falseFlag falseFlag

/-- Agent playing the tie game with an ample time budget. -/
def tieAgent : Agent (List Move) :=
  mkAgent tieG (fun _ => 1000) 10 true 3 .minimaxMeth

/-- The lost game: as the tie game, but `me` has lost in every state after
the root, so every successor of the root evaluates to `-inf`. -/
def lostG : GameIface (List Move) :=
  histGame tieLegal falseFlag (fun h p => p == .me && h.length == 1)

/-- Agent playing the lost game with an ample time budget. -/
def lostAgent : Agent (List Move) :=
  mkAgent lostG (fun _ => 1000) 10 true 3 .minimaxMeth

/-- Legal-move table of a single line of play: move (0,0) for `me`, then
move (1,1) for the opponent. -/
def lineLegal (h : List Move) (p : Player) : List Move :=
  if h = [] then (if p = .me then [(0, 0)] else [])
  else if h = [(0, 0)] then (if p = .opp then [(1, 1)] else [])
  else []

/-- The won game: the single line of play, and `me` has won in every state
two plies in, so the depth-1 minimizing ply below the root sees only the
score `+inf`. -/
def wonG : GameIface (List Move) :=
  histGame lineLegal (fun h p => p == .me && h.length == 2) falseFlag

/-- Agent playing the won game with an ample time budget. -/
def wonAgent : Agent (List Move) :=
  mkAgent wonG (fun _ => 1000) 10 true 3 .minimaxMeth

/-- The line game with no terminal flags at all. -/
def lineG : GameIface (List Move) := histGame lineLegal falseFlag falseFlag

/-- Agent on the line game whose budget never runs out. -/
def okAgent : Agent (List Move) :=
  mkAgent lineG (fun _ => 1000) 10 true 3 .minimaxMeth

/-- Agent on the line game whose budget is exhausted from the start. -/
def zeroAgent : Agent (List Move) :=
  mkAgent lineG (fun _ => 0) 10 true 3 .minimaxMeth

/-- Agent on the line game whose budget runs out at the third deadline
check: depth 1 completes (two checks) and depth 2 times out at entry. -/
def lateAgent : Agent (List Move) :=
  mkAgent lineG (fun t => if t < 2 then 1000 else 0) 10 true 3 .minimaxMeth

/-- Agent on the line game whose budget runs out at the sixth deadline
check: depths 1 and 2 complete and depth 3 times out at entry. -/
def stopAgent : Agent (List Move) :=
  mkAgent lineG (fun t => if t < 5 then 1000 else 0) 10 true 3 .minimaxMeth


/-- A depth-0 `minimax` child call under a clock that never runs out:
evaluate the forecast state and consume one tick. -/
def evRecur (A : Agent σ) : σ → Nat → Except PyErr SearchRet :=
  fun g2 t2 => .ok ((some (A.scoreFn g2 .me), NO_MOVE), t2 + 1)

/-- A depth-0 `alphabeta` child call under a clock that never runs out:
the bounds are ignored at depth 0. -/
def evRecurAB (A : Agent σ) : σ → Score → Score → Nat → Except PyErr SearchRet :=
  fun g2 _ _ t2 => .ok ((some (A.scoreFn g2 .me), NO_MOVE), t2 + 1)

/-!
Helper lemmas.
-/

/-- `pyOr` and `effective_best` compute the same effective score. -/
theorem pyOr_eq_effective_best (cur : Option Score) (d : Score) :
    pyOr cur d = effective_best cur d := by
  rcases cur with _ | s
  · rfl
  · rcases s with _ | n | _
    · rfl
    · by_cases h : n = 0
      · subst h; rfl
      · simp [pyOr, effective_best, h]
    · rfl

/-- The change decision on a numeric proposed score never raises and
computes the strict comparison against the `pyOr` effective best. -/
theorem minimax_change_decision_some (maxp : Bool) (p : Score)
    (cur : Option Score) :
    minimax_change_decision maxp (some p) cur
      = .ok (if maxp then Score.lt (pyOr cur .ninf) p
             else Score.lt p (pyOr cur .pinf)) := by
  cases maxp
  · cases h : Score.lt p (pyOr cur .pinf) <;>
      simp [minimax_change_decision, h]
  · cases h : Score.lt (pyOr cur .ninf) p <;>
      simp [minimax_change_decision, h]

/-- The change decision only ever raises `TypeError`, never `Timeout`. -/
theorem minimax_change_decision_error (maxp : Bool) (s cur : Option Score)
    (e : PyErr) (h : minimax_change_decision maxp s cur = .error e) :
    e = .typeError := by
  rcases s with _ | p
  · simpa [minimax_change_decision] using h.symm
  · rw [minimax_change_decision_some] at h
    cases h

/-- Nothing is IEEE-greater than `+inf`. -/
theorem Score.lt_pinf_false (a : Score) : Score.lt .pinf a = false := rfl

/-- Every non-`+inf` score is IEEE-less than `+inf`. -/
theorem Score.lt_pinf_of_ne (a : Score) (h : a ≠ .pinf) :
    Score.lt a .pinf = true := by
  cases a <;> simp_all [Score.lt]

/-- `>= +inf` holds exactly for `+inf` itself. -/
theorem Score.ge_pinf (a : Score) : Score.ge a .pinf = (a == .pinf) := by
  cases a <;> rfl

/-- The cut decision ignores the player flag: it is `alpha >= beta`. -/
theorem alphabeta_cut_decision_eq (maxp : Bool) (alpha beta : Score) :
    alphabeta_cut_decision maxp alpha beta = Score.ge alpha beta := by
  cases maxp <;> cases h : Score.ge alpha beta <;>
    simp [alphabeta_cut_decision, h]

/-- The bound update on a maximizing ply raises `alpha` to the proposed
score when that improves it and never touches `beta`. -/
theorem alphabeta_update_max (alpha beta p : Score) :
    alphabeta_update true alpha beta p
      = (if Score.lt alpha p then p else alpha, beta) := by
  cases h : Score.lt alpha p <;> simp [alphabeta_update, h]

/-- `minimax` at depth 0 with time on the clock: evaluate and return the
sentinel move. -/
theorem minimax_zero (A : Agent σ) (g : σ) (maxp : Bool) (t : Nat)
    (h : ¬ A.timeLeft t < A.threshold) :
    minimax A 0 g maxp t = .ok ((some (A.scoreFn g .me), NO_MOVE), t + 1) := by
  rw [minimax, if_neg h]

/-- `alphabeta` at depth 0 with time on the clock: evaluate and return the
sentinel move, whatever the bounds. -/
theorem alphabeta_zero (A : Agent σ) (g : σ) (alpha beta : Score)
    (maxp : Bool) (t : Nat) (h : ¬ A.timeLeft t < A.threshold) :
    alphabeta A 0 g alpha beta maxp t
      = .ok ((some (A.scoreFn g .me), NO_MOVE), t + 1) := by
  rw [alphabeta, if_neg h]

/-- The minimax move loop cannot produce a `Timeout` unless a recursive
call does. -/
theorem mmLoop_no_timeout (recur : σ → Nat → Except PyErr SearchRet)
    (maxp : Bool) (G : GameIface σ) (g : σ)
    (hrec : ∀ g2 t2, recur g2 t2 ≠ .error .timeout) :
    ∀ (ms : List Move) (sc : Option Score) (mv : Move) (t : Nat),
      mmLoop recur maxp G g ms sc mv t ≠ .error .timeout := by
  intro ms
  induction ms with
  | nil => intro sc mv t h; simp [mmLoop] at h
  | cons m ms ih =>
    intro sc mv t h
    rw [mmLoop] at h
    split at h
    · rename_i e heq
      injection h with h2
      exact hrec _ _ (h2 ▸ heq)
    · rename_i r heq
      split at h
      · rename_i e heq2
        injection h with h2
        cases minimax_change_decision_error _ _ _ _ (h2 ▸ heq2)
      · exact ih _ _ _ h
      · exact ih _ _ _ h

/-- With a callback that always stays at or above the threshold, `minimax`
never raises `Timeout` at any depth. -/
theorem minimax_no_timeout (A : Agent σ)
    (htime : ∀ k, ¬ A.timeLeft k < A.threshold) :
    ∀ (d : Nat) (g : σ) (maxp : Bool) (t : Nat),
      minimax A d g maxp t ≠ .error .timeout := by
  intro d
  induction d with
  | zero =>
    intro g maxp t h
    rw [minimax_zero A g maxp t (htime t)] at h
    cases h
  | succ d ih =>
    intro g maxp t h
    rw [minimax, if_neg (htime t)] at h
    by_cases hterm : is_game_terminal A.G g = true
    · rw [if_pos hterm] at h; cases h
    · rw [if_neg hterm] at h
      exact mmLoop_no_timeout _ _ _ _ (fun g2 t2 => ih g2 (!maxp) t2)
        _ _ _ _ h

/-- An `if` whose then-branch is a success and whose else-branch avoids
`Timeout` avoids `Timeout`. -/
theorem except_if_ne_timeout {c : Prop} [Decidable c] (x : SearchRet)
    (y : Except PyErr SearchRet) (hy : y ≠ .error .timeout) :
    (if c then Except.ok x else y) ≠ .error .timeout := by
  split
  · intro h; cases h
  · exact hy

/-- The alpha-beta move loop cannot produce a `Timeout` unless a recursive
call does. -/
theorem abLoop_no_timeout
    (recur : σ → Score → Score → Nat → Except PyErr SearchRet)
    (maxp : Bool) (G : GameIface σ) (g : σ)
    (hrec : ∀ g2 a b t2, recur g2 a b t2 ≠ .error .timeout) :
    ∀ (ms : List Move) (sc : Option Score) (mv : Move)
      (alpha beta : Score) (t : Nat),
      abLoop recur maxp G g ms sc mv alpha beta t ≠ .error .timeout := by
  intro ms
  induction ms with
  | nil => intro sc mv alpha beta t h; simp [abLoop] at h
  | cons m ms ih =>
    intro sc mv alpha beta t h
    rw [abLoop] at h
    split at h
    · rename_i e heq
      injection h with h2
      exact hrec _ _ _ _ (h2 ▸ heq)
    · rename_i r heq
      split at h
      · rename_i e heq2
        injection h with h2
        cases minimax_change_decision_error _ _ _ _ (h2 ▸ heq2)
      · exact ih _ _ _ _ _ h
      · rename_i heq2
        split at h
        · cases h
        · exact except_if_ne_timeout _ _ (ih _ _ _ _ _) h

/-- With a callback that always stays at or above the threshold,
`alphabeta` never raises `Timeout` at any depth. -/
theorem alphabeta_no_timeout (A : Agent σ)
    (htime : ∀ k, ¬ A.timeLeft k < A.threshold) :
    ∀ (d : Nat) (g : σ) (alpha beta : Score) (maxp : Bool) (t : Nat),
      alphabeta A d g alpha beta maxp t ≠ .error .timeout := by
  intro d
  induction d with
  | zero =>
    intro g alpha beta maxp t h
    rw [alphabeta_zero A g alpha beta maxp t (htime t)] at h
    cases h
  | succ d ih =>
    intro g alpha beta maxp t h
    rw [alphabeta, if_neg (htime t)] at h
    by_cases hterm : is_game_terminal A.G g = true
    · rw [if_pos hterm] at h; cases h
    · rw [if_neg hterm] at h
      exact abLoop_no_timeout _ _ _ _
        (fun g2 a b t2 => ih g2 a b (!maxp) t2) _ _ _ _ _ _ h

/-- Case analysis for an `if` returning a success against an observed
success. -/
theorem except_if_ok_cases {c : Prop} [Decidable c] {x : SearchRet}
    {y : Except PyErr SearchRet} {r : SearchRet}
    (h : (if c then Except.ok x else y) = .ok r) : r = x ∨ y = .ok r := by
  split at h
  · left; injection h with h2; exact h2.symm
  · right; exact h

/-- Any move returned by the minimax move loop is the carried move or one
of the listed moves. -/
theorem mmLoop_ok_mem (recur : σ → Nat → Except PyErr SearchRet)
    (maxp : Bool) (G : GameIface σ) (g : σ) (S : List Move) :
    ∀ (ms : List Move) (sc : Option Score) (mv : Move) (t : Nat),
      mv ∈ S → (∀ x ∈ ms, x ∈ S) →
      ∀ (s2 : Option Score) (m2 : Move) (t2 : Nat),
        mmLoop recur maxp G g ms sc mv t = .ok ((s2, m2), t2) → m2 ∈ S := by
  intro ms
  induction ms with
  | nil =>
    intro sc mv t hmv hms s2 m2 t2 h
    rw [mmLoop] at h
    injection h with h2
    have h3 : mv = m2 := congrArg (fun z => z.1.2) h2
    exact h3 ▸ hmv
  | cons m ms ih =>
    intro sc mv t hmv hms s2 m2 t2 h
    have hm : m ∈ S := hms m (List.mem_cons_self m ms)
    have hms2 : ∀ x ∈ ms, x ∈ S := fun x hx => hms x (List.mem_cons_of_mem m hx)
    rw [mmLoop] at h
    split at h
    · cases h
    · split at h
      · cases h
      · exact ih _ _ _ hm hms2 _ _ _ h
      · exact ih _ _ _ hmv hms2 _ _ _ h

/-- Any move returned by the alpha-beta move loop is the carried move or
one of the listed moves. -/
theorem abLoop_ok_mem
    (recur : σ → Score → Score → Nat → Except PyErr SearchRet)
    (maxp : Bool) (G : GameIface σ) (g : σ) (S : List Move) :
    ∀ (ms : List Move) (sc : Option Score) (mv : Move)
      (alpha beta : Score) (t : Nat),
      mv ∈ S → (∀ x ∈ ms, x ∈ S) →
      ∀ (s2 : Option Score) (m2 : Move) (t2 : Nat),
        abLoop recur maxp G g ms sc mv alpha beta t = .ok ((s2, m2), t2) →
          m2 ∈ S := by
  intro ms
  induction ms with
  | nil =>
    intro sc mv alpha beta t hmv hms s2 m2 t2 h
    rw [abLoop] at h
    injection h with h2
    have h3 : mv = m2 := congrArg (fun z => z.1.2) h2
    exact h3 ▸ hmv
  | cons m ms ih =>
    intro sc mv alpha beta t hmv hms s2 m2 t2 h
    have hm : m ∈ S := hms m (List.mem_cons_self m ms)
    have hms2 : ∀ x ∈ ms, x ∈ S := fun x hx => hms x (List.mem_cons_of_mem m hx)
    rw [abLoop] at h
    split at h
    · cases h
    · split at h
      · cases h
      · exact ih _ _ _ _ _ hmv hms2 _ _ _ h
      · split at h
        · cases h
        · rcases except_if_ok_cases h with h2 | h2
          · have h3 : m = m2 := congrArg (fun z => z.1.2) h2.symm
            exact h3 ▸ hm
          · exact ih _ _ _ _ _ hm hms2 _ _ _ h2

/-- The head of a non-empty move list, with default, is in the list. -/
theorem headD_mem (S : List Move) (hne : S ≠ []) : S.headD NO_MOVE ∈ S := by
  cases S with
  | nil => exact absurd rfl hne
  | cons a as => simp

/-- On a non-terminal state, a completed `minimax` call at positive depth
returns one of the state's legal moves. -/
theorem minimax_succ_ok_mem (A : Agent σ) (d : Nat) (g : σ) (maxp : Bool)
    (t : Nat) (hterm : ¬ is_game_terminal A.G g = true)
    (s2 : Option Score) (m2 : Move) (t2 : Nat)
    (h : minimax A (d + 1) g maxp t = .ok ((s2, m2), t2)) :
    m2 ∈ legalMovesCur A.G g := by
  rw [minimax] at h
  by_cases htl : A.timeLeft t < A.threshold
  · rw [if_pos htl] at h; cases h
  · rw [if_neg htl, if_neg hterm] at h
    have hne : legalMovesCur A.G g ≠ [] := by
      intro hx
      exact hterm (by simp [is_game_terminal, hx])
    exact mmLoop_ok_mem _ _ _ _ (legalMovesCur A.G g) _ _ _ _
      (headD_mem _ hne) (fun x hx => hx) _ _ _ h

/-- On a non-terminal state, a completed `alphabeta` call at positive depth
returns one of the state's legal moves. -/
theorem alphabeta_succ_ok_mem (A : Agent σ) (d : Nat) (g : σ)
    (alpha beta : Score) (maxp : Bool) (t : Nat)
    (hterm : ¬ is_game_terminal A.G g = true)
    (s2 : Option Score) (m2 : Move) (t2 : Nat)
    (h : alphabeta A (d + 1) g alpha beta maxp t = .ok ((s2, m2), t2)) :
    m2 ∈ legalMovesCur A.G g := by
  rw [alphabeta] at h
  by_cases htl : A.timeLeft t < A.threshold
  · rw [if_pos htl] at h; cases h
  · rw [if_neg htl, if_neg hterm] at h
    have hne : legalMovesCur A.G g ≠ [] := by
      intro hx
      exact hterm (by simp [is_game_terminal, hx])
    exact abLoop_ok_mem _ _ _ _ (legalMovesCur A.G g) _ _ _ _ _ _
      (headD_mem _ hne) (fun x hx => hx) _ _ _ h

/-- On a non-terminal state, a completed top-level search call at positive
depth returns one of the state's legal moves, whichever method is
configured. -/
theorem dispatch_ok_mem (A : Agent σ) (g : σ) (d : Nat) (hd : 1 ≤ d)
    (hterm : ¬ is_game_terminal A.G g = true) (t : Nat)
    (s2 : Option Score) (m2 : Move) (t2 : Nat)
    (h : dispatch A g d t = .ok ((s2, m2), t2)) :
    m2 ∈ legalMovesCur A.G g := by
  obtain ⟨d2, rfl⟩ : ∃ d2, d = d2 + 1 := ⟨d - 1, by omega⟩
  unfold dispatch at h
  cases hm : A.method
  · rw [hm] at h
    exact minimax_succ_ok_mem A d2 g true t hterm s2 m2 t2 h
  · rw [hm] at h
    exact alphabeta_succ_ok_mem A d2 g .ninf .pinf true t hterm s2 m2 t2 h

/-- The iterative-deepening driver never yields a `Timeout`: the loop
catches it. -/
theorem idDrive_no_timeout (run : Nat → Nat → Except PyErr SearchRet) :
    ∀ (fuel depth t : Nat) (mv : Move),
      idDrive run fuel depth t mv ≠ some (.error .timeout) := by
  intro fuel
  induction fuel with
  | zero => intro depth t mv h; simp [idDrive] at h
  | succ fuel ih =>
    intro depth t mv h
    rw [idDrive] at h
    cases hr : run depth t with
    | error e => cases e <;> simp [hr] at h
    | ok r =>
      rcases r with ⟨⟨s2, m2⟩, t2⟩
      simp [hr] at h
      exact ih _ _ _ h

/-- When the search at the current depth times out, the driver returns the
carried move of the last completed depth, whatever the interrupted depth
explored. -/
theorem idDrive_timeout_keep (run : Nat → Nat → Except PyErr SearchRet)
    (fuel depth t : Nat) (mv : Move) (h : run depth t = .error .timeout) :
    idDrive run (fuel + 1) depth t mv = some (.ok mv) := by
  rw [idDrive, h]

/-- When the search at the current depth completes, the driver replaces the
carried move and moves to the next depth. -/
theorem idDrive_ok_step (run : Nat → Nat → Except PyErr SearchRet)
    (fuel depth t : Nat) (mv : Move) (s2 : Option Score) (m2 : Move)
    (t2 : Nat) (h : run depth t = .ok ((s2, m2), t2)) :
    idDrive run (fuel + 1) depth t mv = idDrive run fuel (depth + 1) t2 m2 := by
  rw [idDrive, h]

/-- A driver run started where a `Reaches` trace ends can be replayed from
the trace's start: the completed depths below `d` consume one unit of fuel
each and deliver the carried move and tick. -/
theorem reaches_idDrive (run : Nat → Nat → Except PyErr SearchRet)
    (mv0 : Move) : ∀ {d t : Nat} {mv : Move}, Reaches run mv0 d t mv →
    ∀ (fuel : Nat) (r : Except PyErr Move),
      idDrive run (fuel + 1) d t mv = some r →
      idDrive run (fuel + d) 1 0 mv0 = some r := by
  intro d t mv hreach
  induction hreach with
  | init => intro fuel r h; exact h
  | step hre hok ih =>
    rename_i d t mv s2 m2 t2
    intro fuel r h
    have h2 : idDrive run ((fuel + 1) + 1) d t mv = some r := by
      rw [idDrive_ok_step run (fuel + 1) d t mv s2 m2 t2 hok]
      exact h
    have h3 := ih (fuel + 1) r h2
    have he : fuel + (d + 1) = (fuel + 1) + d := by omega
    rw [he]
    exact h3

/-- Any move yielded by the driver is the carried move or comes from a
completed search at a positive depth. -/
theorem idDrive_ok_mem (run : Nat → Nat → Except PyErr SearchRet)
    (S : List Move)
    (hrun : ∀ (d t : Nat) (s2 : Option Score) (m2 : Move) (t2 : Nat),
      1 ≤ d → run d t = .ok ((s2, m2), t2) → m2 ∈ S) :
    ∀ (fuel depth t : Nat) (mv : Move), 1 ≤ depth → mv ∈ S →
      ∀ (mv2 : Move), idDrive run fuel depth t mv = some (.ok mv2) →
        mv2 ∈ S := by
  intro fuel
  induction fuel with
  | zero => intro depth t mv hd hmv mv2 h; simp [idDrive] at h
  | succ fuel ih =>
    intro depth t mv hd hmv mv2 h
    rw [idDrive] at h
    cases hr : run depth t with
    | error e =>
      cases e
      · simp [hr] at h
        exact h ▸ hmv
      · simp [hr] at h
    | ok r =>
      rcases r with ⟨⟨s2, m2⟩, t2⟩
      simp [hr] at h
      exact ih _ _ _ (by omega) (hrun _ _ _ _ _ hd hr) _ h

/-- The change decision of a maximizing ply on a numeric score. -/
theorem minimax_change_decision_true (p : Score) (cur : Option Score) :
    minimax_change_decision true (some p) cur
      = .ok (Score.lt (pyOr cur .ninf) p) := by
  rw [minimax_change_decision_some]
  simp

/-- A maximizing ply never leaves a current best of `+inf`. -/
theorem minimax_change_decision_pinf (p : Score) :
    minimax_change_decision true (some p) (some .pinf) = .ok false := by
  rw [minimax_change_decision_true]
  simp [pyOr, Score.lt]

/-- The minimax move loop only looks at the recursion function pointwise. -/
theorem mmLoop_congr (r1 r2 : σ → Nat → Except PyErr SearchRet)
    (maxp : Bool) (G : GameIface σ) (g : σ)
    (hr : ∀ g2 t2, r1 g2 t2 = r2 g2 t2) :
    ∀ (ms : List Move) (sc : Option Score) (mv : Move) (t : Nat),
      mmLoop r1 maxp G g ms sc mv t = mmLoop r2 maxp G g ms sc mv t := by
  intro ms
  induction ms with
  | nil => intro sc mv t; rfl
  | cons m ms ih =>
    intro sc mv t
    rw [mmLoop, mmLoop, hr]
    cases h2 : r2 (G.forecast g m) t with
    | error e => rfl
    | ok r =>
      rcases r with ⟨⟨s, mv2⟩, t2⟩
      show (match minimax_change_decision maxp s sc with
            | .error e => (.error e : Except PyErr SearchRet)
            | .ok true => mmLoop r1 maxp G g ms s m t2
            | .ok false => mmLoop r1 maxp G g ms sc mv t2)
          = (match minimax_change_decision maxp s sc with
            | .error e => .error e
            | .ok true => mmLoop r2 maxp G g ms s m t2
            | .ok false => mmLoop r2 maxp G g ms sc mv t2)
      cases hd : minimax_change_decision maxp s sc with
      | error e => rfl
      | ok b =>
        cases b
        · exact ih sc mv t2
        · exact ih s m t2

/-- The alpha-beta move loop only looks at the recursion function
pointwise. -/
theorem abLoop_congr (r1 r2 : σ → Score → Score → Nat → Except PyErr SearchRet)
    (maxp : Bool) (G : GameIface σ) (g : σ)
    (hr : ∀ g2 a b t2, r1 g2 a b t2 = r2 g2 a b t2) :
    ∀ (ms : List Move) (sc : Option Score) (mv : Move)
      (alpha beta : Score) (t : Nat),
      abLoop r1 maxp G g ms sc mv alpha beta t
        = abLoop r2 maxp G g ms sc mv alpha beta t := by
  intro ms
  induction ms with
  | nil => intro sc mv alpha beta t; rfl
  | cons m ms ih =>
    intro sc mv alpha beta t
    rw [abLoop, abLoop, hr]
    cases h2 : r2 (G.forecast g m) alpha beta t with
    | error e => rfl
    | ok r =>
      rcases r with ⟨⟨s, mv2⟩, t2⟩
      clear h2
      show (match minimax_change_decision maxp s sc with
            | .error e => (.error e : Except PyErr SearchRet)
            | .ok false => abLoop r1 maxp G g ms sc mv alpha beta t2
            | .ok true =>
              match s with
              | none => .error .typeError
              | some p =>
                match alphabeta_update maxp alpha beta p with
                | (alpha2, beta2) =>
                  if alphabeta_cut_decision maxp alpha2 beta2 then
                    .ok ((some p, m), t2)
                  else abLoop r1 maxp G g ms (some p) m alpha2 beta2 t2)
          = (match minimax_change_decision maxp s sc with
            | .error e => .error e
            | .ok false => abLoop r2 maxp G g ms sc mv alpha beta t2
            | .ok true =>
              match s with
              | none => .error .typeError
              | some p =>
                match alphabeta_update maxp alpha beta p with
                | (alpha2, beta2) =>
                  if alphabeta_cut_decision maxp alpha2 beta2 then
                    .ok ((some p, m), t2)
                  else abLoop r2 maxp G g ms (some p) m alpha2 beta2 t2)
      cases hd : minimax_change_decision maxp s sc with
      | error e => rfl
      | ok b =>
        cases b
        · exact ih sc mv alpha beta t2
        · cases s with
          | none => rfl
          | some p =>
            show (match alphabeta_update maxp alpha beta p with
                  | (alpha2, beta2) =>
                    if alphabeta_cut_decision maxp alpha2 beta2 then
                      (.ok ((some p, m), t2) : Except PyErr SearchRet)
                    else abLoop r1 maxp G g ms (some p) m alpha2 beta2 t2)
                = (match alphabeta_update maxp alpha beta p with
                  | (alpha2, beta2) =>
                    if alphabeta_cut_decision maxp alpha2 beta2 then
                      .ok ((some p, m), t2)
                    else abLoop r2 maxp G g ms (some p) m alpha2 beta2 t2)
            rcases hu : alphabeta_update maxp alpha beta p with ⟨a2, b2⟩
            show (if alphabeta_cut_decision maxp a2 b2 then
                    (.ok ((some p, m), t2) : Except PyErr SearchRet)
                  else abLoop r1 maxp G g ms (some p) m a2 b2 t2)
                = (if alphabeta_cut_decision maxp a2 b2 then
                    .ok ((some p, m), t2)
                  else abLoop r2 maxp G g ms (some p) m a2 b2 t2)
            by_cases hcut : alphabeta_cut_decision maxp a2 b2 = true
            · rw [if_pos hcut, if_pos hcut]
            · rw [if_neg hcut, if_neg hcut]
              exact ih (some p) m a2 b2 t2

/-- Once the running best of a maximizing ply is `+inf`, the remaining
iterations of the minimax loop over depth-0 children change nothing. -/
theorem mmLoop_pinf (A : Agent σ) (g : σ) :
    ∀ (ms : List Move) (mv : Move) (t : Nat),
      Except.map Prod.fst
          (mmLoop (evRecur A) true A.G g ms (some .pinf) mv t)
        = .ok (some Score.pinf, mv) := by
  intro ms
  induction ms with
  | nil => intro mv t; rfl
  | cons m ms ih =>
    intro mv t
    show Except.map Prod.fst
        (match minimax_change_decision true
            (some (A.scoreFn (A.G.forecast g m) .me)) (some Score.pinf) with
         | .error e => (.error e : Except PyErr SearchRet)
         | .ok true => mmLoop (evRecur A) true A.G g ms
             (some (A.scoreFn (A.G.forecast g m) .me)) m (t + 1)
         | .ok false => mmLoop (evRecur A) true A.G g ms
             (some Score.pinf) mv (t + 1))
      = .ok (some Score.pinf, mv)
    rw [minimax_change_decision_pinf]
    exact ih mv (t + 1)

/-- On a maximizing ply whose children are all evaluated at depth 0, the
minimax loop and the alpha-beta loop with upper bound `+inf` select the
same `(score, move)` pair, for any lower bound below `+inf`. -/
theorem loop01 (A : Agent σ) (g : σ) :
    ∀ (ms : List Move) (sc : Option Score) (mv : Move) (alpha : Score)
      (t : Nat), alpha ≠ .pinf →
      Except.map Prod.fst (mmLoop (evRecur A) true A.G g ms sc mv t)
        = Except.map Prod.fst
            (abLoop (evRecurAB A) true A.G g ms sc mv alpha .pinf t) := by
  intro ms
  induction ms with
  | nil => intro sc mv alpha t ha; rfl
  | cons m ms ih =>
    intro sc mv alpha t ha
    show Except.map Prod.fst
        (match minimax_change_decision true
            (some (A.scoreFn (A.G.forecast g m) .me)) sc with
         | .error e => (.error e : Except PyErr SearchRet)
         | .ok true => mmLoop (evRecur A) true A.G g ms
             (some (A.scoreFn (A.G.forecast g m) .me)) m (t + 1)
         | .ok false => mmLoop (evRecur A) true A.G g ms sc mv (t + 1))
      = Except.map Prod.fst
          (match minimax_change_decision true
              (some (A.scoreFn (A.G.forecast g m) .me)) sc with
           | .error e => .error e
           | .ok false => abLoop (evRecurAB A) true A.G g ms sc mv
               alpha .pinf (t + 1)
           | .ok true =>
             match alphabeta_update true alpha .pinf
                 (A.scoreFn (A.G.forecast g m) .me) with
             | (alpha2, beta2) =>
               if alphabeta_cut_decision true alpha2 beta2 then
                 .ok ((some (A.scoreFn (A.G.forecast g m) .me), m), t + 1)
               else abLoop (evRecurAB A) true A.G g ms
                   (some (A.scoreFn (A.G.forecast g m) .me)) m
                   alpha2 beta2 (t + 1))
    rw [minimax_change_decision_true]
    cases hb : Score.lt (pyOr sc .ninf) (A.scoreFn (A.G.forecast g m) .me) with
    | false => exact ih sc mv alpha (t + 1) ha
    | true =>
      by_cases hs : A.scoreFn (A.G.forecast g m) .me = Score.pinf
      · rw [hs]
        show Except.map Prod.fst
            (mmLoop (evRecur A) true A.G g ms (some Score.pinf) m (t + 1))
          = Except.map Prod.fst
              (match alphabeta_update true alpha .pinf Score.pinf with
               | (alpha2, beta2) =>
                 if alphabeta_cut_decision true alpha2 beta2 then
                   (.ok ((some Score.pinf, m), t + 1) :
                     Except PyErr SearchRet)
                 else abLoop (evRecurAB A) true A.G g ms
                     (some Score.pinf) m alpha2 beta2 (t + 1))
        have hupd : alphabeta_update true alpha Score.pinf Score.pinf
            = (Score.pinf, Score.pinf) := by
          rw [alphabeta_update_max, if_pos (Score.lt_pinf_of_ne alpha ha)]
        rw [hupd, mmLoop_pinf]
        rfl
      · show Except.map Prod.fst
            (mmLoop (evRecur A) true A.G g ms
              (some (A.scoreFn (A.G.forecast g m) .me)) m (t + 1))
          = Except.map Prod.fst
              (match alphabeta_update true alpha .pinf
                  (A.scoreFn (A.G.forecast g m) .me) with
               | (alpha2, beta2) =>
                 if alphabeta_cut_decision true alpha2 beta2 then
                   (.ok ((some (A.scoreFn (A.G.forecast g m) .me), m), t + 1) :
                     Except PyErr SearchRet)
                 else abLoop (evRecurAB A) true A.G g ms
                     (some (A.scoreFn (A.G.forecast g m) .me)) m
                     alpha2 beta2 (t + 1))
        rw [alphabeta_update_max]
        by_cases hlt : Score.lt alpha (A.scoreFn (A.G.forecast g m) .me) = true
        · rw [if_pos hlt]
          show Except.map Prod.fst
              (mmLoop (evRecur A) true A.G g ms
                (some (A.scoreFn (A.G.forecast g m) .me)) m (t + 1))
            = Except.map Prod.fst
                (if alphabeta_cut_decision true
                    (A.scoreFn (A.G.forecast g m) .me) Score.pinf then
                  (.ok ((some (A.scoreFn (A.G.forecast g m) .me), m), t + 1) :
                    Except PyErr SearchRet)
                else abLoop (evRecurAB A) true A.G g ms
                    (some (A.scoreFn (A.G.forecast g m) .me)) m
                    (A.scoreFn (A.G.forecast g m) .me) Score.pinf (t + 1))
          have hcut : alphabeta_cut_decision true
              (A.scoreFn (A.G.forecast g m) .me) Score.pinf = false := by
            rw [alphabeta_cut_decision_eq, Score.ge_pinf]
            simp [hs]
          rw [hcut]
          exact ih (some (A.scoreFn (A.G.forecast g m) .me)) m
            (A.scoreFn (A.G.forecast g m) .me) (t + 1) hs
        · rw [if_neg hlt]
          show Except.map Prod.fst
              (mmLoop (evRecur A) true A.G g ms
                (some (A.scoreFn (A.G.forecast g m) .me)) m (t + 1))
            = Except.map Prod.fst
                (if alphabeta_cut_decision true alpha Score.pinf then
                  (.ok ((some (A.scoreFn (A.G.forecast g m) .me), m), t + 1) :
                    Except PyErr SearchRet)
                else abLoop (evRecurAB A) true A.G g ms
                    (some (A.scoreFn (A.G.forecast g m) .me)) m
                    alpha Score.pinf (t + 1))
          have hcut : alphabeta_cut_decision true alpha Score.pinf = false := by
            rw [alphabeta_cut_decision_eq, Score.ge_pinf]
            simp [ha]
          rw [hcut]
          exact ih (some (A.scoreFn (A.G.forecast g m) .me)) m
            alpha (t + 1) ha

/-!
Claim theorems.
-/

/-- C1 counterexample: with a current best of `0.0` (a falsy float in
Python), the code's selection rule fires for a *strictly worse* candidate
(`-1.0 > (0.0 or -inf) = -inf`), contradicting the claimed
strictly-greater-than-current-best rule; consequently, when two sibling
moves of a maximizing depth-1 ply both score `0.0`, `minimax` selects the
*last* enumerated move `(0, 1)`, not the first `(0, 0)`. -/
theorem c1_selection_rule_counterexample :
    minimax_change_decision true (some (.fin (-1))) (some (.fin 0)) = .ok true
    ∧ spec_selection_rule true (.fin (-1)) (some (.fin 0)) = false
    ∧ minimax tieAgent 1 [] true 0
        = .ok ((some (.fin 0), ((0 : Int), (1 : Int))), 3)
    ∧ legalMovesCur tieG [] = [((0 : Int), (0 : Int)), ((0 : Int), (1 : Int))]
    ∧ custom_score tieG [((0 : Int), (0 : Int))] .me = .fin 0
    ∧ custom_score tieG [((0 : Int), (1 : Int))] .me = .fin 0 :=
  ⟨rfl, rfl, rfl, rfl, rfl, rfl⟩

/-- C1 (amended): a candidate with a numeric score replaces the current
best iff it strictly improves on the *effective* current best, where both
`no current best yet` and a current best equal to `0.0` (falsy in Python)
count as `-inf` on maximizing plies and `+inf` on minimizing plies. -/
theorem c1_selection_rule_amended (maxplayer : Bool) (p : Score)
    (current : Option Score) :
    minimax_change_decision maxplayer (some p) current
      = .ok (spec_selection_rule_zero maxplayer p current) := by
  rw [minimax_change_decision_some]
  simp only [spec_selection_rule_zero, pyOr_eq_effective_best]

/-- C2 counterexample: on the concrete divergence game at depth 2 with
default bounds and ample time, `minimax` returns the pair
`(-1.0, (0, 1))` while `alphabeta` returns `(0.0, (0, 2))`: a beta cutoff
inside the third child hides the leaf that `minimax` later accepts through
the falsy-zero selection rule, so the two searches disagree on both score
and move. -/
theorem c2_minimax_alphabeta_counterexample :
    Except.map Prod.fst (minimax exAgent 2 [] true 0)
      ≠ Except.map Prod.fst (alphabeta exAgent 2 [] .ninf .pinf true 0) := by
  intro h
  have e1 : Except.map Prod.fst (minimax exAgent 2 [] true 0)
      = Except.ok ((some (Score.fin (-1)), ((0 : Int), (1 : Int)))
          : Option Score × Move) := rfl
  have e2 : Except.map Prod.fst (alphabeta exAgent 2 [] .ninf .pinf true 0)
      = Except.ok ((some (Score.fin 0), ((0 : Int), (2 : Int)))
          : Option Score × Move) := rfl
  rw [e1, e2] at h
  simp at h

/-- C2 (amended): at depths 0 and 1, for every game state and every clock
that stays at or above the threshold throughout, `minimax` and `alphabeta`
with default bounds return identical `(score, move)` pairs. -/
theorem c2_minimax_alphabeta_amended (A : Agent σ) (g : σ) (d t : Nat)
    (htime : ∀ k, ¬ A.timeLeft k < A.threshold) (hd : d ≤ 1) :
    Except.map Prod.fst (minimax A d g true t)
      = Except.map Prod.fst (alphabeta A d g .ninf .pinf true t) := by
  have hd2 : d = 0 ∨ d = 1 := by omega
  rcases hd2 with rfl | rfl
  · rw [minimax_zero A g true t (htime t),
      alphabeta_zero A g .ninf .pinf true t (htime t)]
  · rw [minimax, alphabeta, if_neg (htime t), if_neg (htime t)]
    by_cases hterm : is_game_terminal A.G g = true
    · rw [if_pos hterm, if_pos hterm]
    · rw [if_neg hterm, if_neg hterm]
      rw [mmLoop_congr (fun g2 t2 => minimax A 0 g2 (!true) t2) (evRecur A)
        true A.G g (fun g2 t2 => minimax_zero A g2 (!true) t2 (htime t2))]
      rw [abLoop_congr (fun g2 a b t2 => alphabeta A 0 g2 a b (!true) t2)
        (evRecurAB A) true A.G g
        (fun g2 a b t2 => alphabeta_zero A g2 a b (!true) t2 (htime t2))]
      exact loop01 A g (legalMovesCur A.G g) none
        ((legalMovesCur A.G g).headD NO_MOVE) .ninf (t + 1)
        (by intro hx; cases hx)

/-- Witness for C2 (amended) at depth 1 on a concrete game. -/
theorem c2_minimax_alphabeta_amended_witness :
    Except.map Prod.fst (minimax okAgent 1 [] true 0)
      = Except.map Prod.fst (alphabeta okAgent 1 [] .ninf .pinf true 0) :=
  c2_minimax_alphabeta_amended okAgent [] 1 0
    (fun _ => by norm_num [okAgent, mkAgent]) (by norm_num)

/-- C3: when the supplied legal-move list equals the state's legal moves
and the configured fixed depth is positive, any move that `get_move`
returns is one of the supplied legal moves when the list is non-empty, and
is the sentinel exactly when the list is empty. -/
theorem c3_get_move_in_legal_moves (A : Agent σ) (g : σ) (lm : List Move)
    (fuel : Nat) (r : Except PyErr Move)
    (hlm : lm = legalMovesCur A.G g) (hsd : 1 ≤ A.searchDepth)
    (hr : get_move A g lm fuel = some r) :
    (lm = [] → r = .ok NO_MOVE)
    ∧ ∀ mv, r = .ok mv → lm ≠ [] → mv ∈ lm := by
  by_cases hemp : lm = []
  · subst hemp
    have he : get_move A g [] fuel = some (.ok NO_MOVE) := rfl
    rw [he] at hr
    injection hr with hr2
    exact ⟨fun _ => hr2.symm, fun mv hmv hne => absurd rfl hne⟩
  · refine ⟨fun h => absurd h hemp, fun mv hmv _ => ?_⟩
    subst hmv
    have hterm : ¬ is_game_terminal A.G g = true := by
      rw [is_game_terminal, ← hlm]
      simp [List.length_eq_zero, hemp]
    have hhead : lm.headD NO_MOVE ∈ lm := headD_mem lm hemp
    unfold get_move get_move_run at hr
    rw [if_neg (by simpa [List.length_eq_zero] using hemp)] at hr
    by_cases hit : A.iterative = true
    · rw [if_pos hit] at hr
      exact idDrive_ok_mem (dispatch A g) lm
        (fun d t s2 m2 t2 hd1 hok =>
          hlm ▸ dispatch_ok_mem A g d hd1 hterm t s2 m2 t2 hok)
        fuel 1 0 (lm.headD NO_MOVE) (by omega) hhead mv hr
    · rw [if_neg hit] at hr
      cases hdp : dispatch A g A.searchDepth 0 with
      | error e =>
        cases e
        · simp only [hdp] at hr
          injection hr with h3
          injection h3 with h4
          exact h4 ▸ hhead
        · simp [hdp] at hr
      | ok rr =>
        rcases rr with ⟨⟨s2, m2⟩, t2⟩
        simp [hdp] at hr
        exact hr ▸ (hlm ▸ dispatch_ok_mem A g A.searchDepth hsd hterm
          0 s2 m2 t2 hdp)

/-- Witness for C3 on a concrete completed search. -/
theorem c3_get_move_in_legal_moves_witness :
    (([((0 : Int), (0 : Int))] : List Move) = [] →
      (Except.ok (((0 : Int), (0 : Int)) : Move) : Except PyErr Move)
        = .ok NO_MOVE)
    ∧ ∀ mv, (Except.ok (((0 : Int), (0 : Int)) : Move) : Except PyErr Move)
        = .ok mv → ([((0 : Int), (0 : Int))] : List Move) ≠ []
        → mv ∈ [((0 : Int), (0 : Int))] :=
  c3_get_move_in_legal_moves stopAgent [] [((0 : Int), (0 : Int))] 5
    (.ok ((0 : Int), (0 : Int))) rfl (by norm_num [stopAgent, mkAgent]) rfl

/-- C4: with an empty legal-move list, `get_move` returns the sentinel
`(-1, -1)` immediately, whatever search function would have been run (so
neither `minimax` nor `alphabeta` is invoked) and whatever the agent's
configuration. -/
theorem c4_empty_legal_moves_sentinel :
    (∀ (it : Bool) (sd : Nat) (run : Nat → Nat → Except PyErr SearchRet)
        (fuel : Nat), get_move_run it sd run [] fuel = some (.ok NO_MOVE))
    ∧ ∀ (σ : Type) (A : Agent σ) (g : σ) (fuel : Nat),
        get_move A g [] fuel = some (.ok NO_MOVE) :=
  ⟨fun _ _ _ _ => rfl, fun _ _ _ _ => rfl⟩

/-- C5: the evaluation function returns `-inf` when the player has lost,
`+inf` when the player has won (the two flags never hold together on a real
board), and otherwise exactly the player's legal-move count minus the
opponent's legal-move count. -/
theorem c5_custom_score_contract (G : GameIface σ) (g : σ) (p : Player)
    (hx : ¬(G.isLoser g p = true ∧ G.isWinner g p = true)) :
    (G.isLoser g p = true → custom_score G g p = .ninf)
    ∧ (G.isWinner g p = true → custom_score G g p = .pinf)
    ∧ (G.isLoser g p = false → G.isWinner g p = false →
        custom_score G g p
          = .fin (((G.legalMovesFor g p).length : Int)
              - ((G.legalMovesFor g p.other).length : Int))) := by
  refine ⟨fun h => ?_, fun h => ?_, fun h1 h2 => ?_⟩
  · simp [custom_score, h]
  · have hl : G.isLoser g p = false := by
      cases hval : G.isLoser g p
      · rfl
      · exact absurd ⟨hval, h⟩ hx
    simp [custom_score, hl, h]
  · simp [custom_score, h1, h2]

/-- Witness for C5 on a concrete non-terminal state. -/
theorem c5_custom_score_contract_witness :
    (lineG.isLoser [] .me = true → custom_score lineG [] .me = .ninf)
    ∧ (lineG.isWinner [] .me = true → custom_score lineG [] .me = .pinf)
    ∧ (lineG.isLoser [] .me = false → lineG.isWinner [] .me = false →
        custom_score lineG [] .me
          = .fin (((lineG.legalMovesFor [] .me).length : Int)
              - ((lineG.legalMovesFor [] Player.me.other).length : Int))) :=
  c5_custom_score_contract lineG [] .me (by decide)

/-- C6: at the entry of every `minimax` or `alphabeta` invocation (any
depth, any bounds, any player flag), a clock reading below the threshold
makes the call raise `Timeout` immediately — the result does not depend on
the state at all — while a clock that never dips below the threshold means
no `Timeout` is ever raised. -/
theorem c6_deadline_check_at_entry (A : Agent σ) (d : Nat) (g : σ)
    (alpha beta : Score) (maxp : Bool) (t : Nat) :
    (A.timeLeft t < A.threshold →
      minimax A d g maxp t = .error .timeout
      ∧ alphabeta A d g alpha beta maxp t = .error .timeout)
    ∧ ((∀ k, ¬ A.timeLeft k < A.threshold) →
      minimax A d g maxp t ≠ .error .timeout
      ∧ alphabeta A d g alpha beta maxp t ≠ .error .timeout) := by
  constructor
  · intro h
    constructor
    · cases d
      · rw [minimax, if_pos h]
      · rw [minimax, if_pos h]
    · cases d
      · rw [alphabeta, if_pos h]
      · rw [alphabeta, if_pos h]
  · intro h
    exact ⟨minimax_no_timeout A h d g maxp t,
      alphabeta_no_timeout A h d g alpha beta maxp t⟩

/-- Witness for C6: an exhausted clock times out at entry; an ample clock
never times out. -/
theorem c6_deadline_check_at_entry_witness :
    (minimax zeroAgent 1 [] true 0 = .error .timeout
      ∧ alphabeta zeroAgent 1 [] .ninf .pinf true 0 = .error .timeout)
    ∧ (minimax okAgent 1 [] true 0 ≠ .error .timeout
      ∧ alphabeta okAgent 1 [] .ninf .pinf true 0 ≠ .error .timeout) :=
  ⟨(c6_deadline_check_at_entry zeroAgent 1 [] .ninf .pinf true 0).1
      (by norm_num [zeroAgent, mkAgent]),
   (c6_deadline_check_at_entry okAgent 1 [] .ninf .pinf true 0).2
      (fun _ => by norm_num [okAgent, mkAgent])⟩

/-- C7: `get_move` never lets the `Timeout` signal escape: whatever the
state, move list, and clock, its observable result is never a propagated
`Timeout`. -/
theorem c7_timeout_never_escapes (A : Agent σ) (g : σ) (lm : List Move)
    (fuel : Nat) : get_move A g lm fuel ≠ some (.error .timeout) := by
  unfold get_move get_move_run
  by_cases hemp : lm.length = 0
  · rw [if_pos hemp]
    intro h
    simp at h
  · rw [if_neg hemp]
    by_cases hit : A.iterative = true
    · rw [if_pos hit]
      exact idDrive_no_timeout _ _ _ _ _
    · rw [if_neg hit]
      cases hdp : dispatch A g A.searchDepth 0 with
      | error e => cases e <;> simp [hdp]
      | ok rr =>
        rcases rr with ⟨⟨s2, m2⟩, t2⟩
        simp [hdp]

/-- Witness for C7 on a clock that is exhausted from the start. -/
theorem c7_timeout_never_escapes_witness :
    get_move zeroAgent [] [((0 : Int), (0 : Int))] 3
      ≠ some (.error .timeout) :=
  c7_timeout_never_escapes zeroAgent [] [((0 : Int), (0 : Int))] 3

/-- C8: in iterative-deepening mode, whenever the driver has completed
every depth below `d` (arriving at depth `d` carrying `mv`, the move of the
last fully completed depth `d - 1`, or the initial fallback — the first
legal move — when no depth completed) and the depth-`d` call raises
`Timeout`, `get_move` returns exactly `mv`: the interrupted depth's partial
exploration never alters the returned move.  With `d = 2` this is the
claim's particular case: a budget expiring during depth 2 yields the
depth-1 move. -/
theorem c8_last_completed_depth (A : Agent σ) (g : σ) (lm : List Move)
    (fuel d t : Nat) (mv : Move)
    (hit : A.iterative = true) (hlm : lm ≠ []) (hfuel : d ≤ fuel)
    (hreach : Reaches (dispatch A g) (lm.headD NO_MOVE) d t mv)
    (htimeout : dispatch A g d t = .error .timeout) :
    get_move A g lm fuel = some (.ok mv) := by
  unfold get_move get_move_run
  rw [if_neg (by simpa [List.length_eq_zero] using hlm), hit, if_pos rfl]
  obtain ⟨f, rfl⟩ : ∃ f, fuel = f + d := ⟨fuel - d, by omega⟩
  exact reaches_idDrive (dispatch A g) (lm.headD NO_MOVE) hreach f (.ok mv)
    (idDrive_timeout_keep (dispatch A g) f d t mv htimeout)

/-- Witness for C8 at `d = 2`: depth 1 completes at tick 2 with move
`(0, 0)`, depth 2 times out at entry, and `get_move` returns the depth-1
move. -/
theorem c8_last_completed_depth_witness :
    get_move lateAgent [] [((0 : Int), (0 : Int))] 2
      = some (.ok ((0 : Int), (0 : Int))) :=
  c8_last_completed_depth lateAgent [] [((0 : Int), (0 : Int))] 2 2 2
    ((0 : Int), (0 : Int)) rfl (by simp) (by norm_num)
    (Reaches.step Reaches.init (by rfl)) (by rfl)

/-- C9: at depth 0 with time on the clock, both searches return the
evaluation of the state from the agent's own fixed perspective together
with the sentinel move, regardless of terminality, bounds, or player
flag, and perform no recursion. -/
theorem c9_depth_zero_evaluation (A : Agent σ) (g : σ) (maxp : Bool)
    (alpha beta : Score) (t : Nat) (h : ¬ A.timeLeft t < A.threshold) :
    minimax A 0 g maxp t = .ok ((some (A.scoreFn g .me), NO_MOVE), t + 1)
    ∧ alphabeta A 0 g alpha beta maxp t
        = .ok ((some (A.scoreFn g .me), NO_MOVE), t + 1) :=
  ⟨minimax_zero A g maxp t h, alphabeta_zero A g alpha beta maxp t h⟩

/-- Witness for C9 on a concrete state. -/
theorem c9_depth_zero_evaluation_witness :
    minimax okAgent 0 [] true 0 = .ok ((some (.fin 1), NO_MOVE), 1)
    ∧ alphabeta okAgent 0 [] .ninf .pinf true 0
        = .ok ((some (.fin 1), NO_MOVE), 1) :=
  c9_depth_zero_evaluation okAgent [] true .ninf .pinf 0
    (by norm_num [okAgent, mkAgent])

/-- C10: on the lost game every successor of the maximizing root evaluates
to `-inf`, the change decision never fires, and `minimax` at depth 1
returns `(None, first legal move)`; one ply higher, on the won game at
depth 2, the enclosing maximizing ply feeds that `None` score to the change
decision, which orders `None` against a float and raises `TypeError`. -/
theorem c10_none_score_propagates :
    minimax lostAgent 1 [] true 0
      = .ok ((none, ((0 : Int), (0 : Int))), 3)
    ∧ legalMovesCur lostG []
        = [((0 : Int), (0 : Int)), ((0 : Int), (1 : Int))]
    ∧ custom_score lostG [((0 : Int), (0 : Int))] .me = .ninf
    ∧ custom_score lostG [((0 : Int), (1 : Int))] .me = .ninf
    ∧ minimax wonAgent 2 [] true 0 = .error .typeError :=
  ⟨rfl, rfl, rfl, rfl, rfl⟩
